import Mathlib

/-!
Verification development for the animal-vocalization capture and analysis
backend.  Python sources under src/backend/app are shallowly embedded as
executable Lean definitions: byte strings become `List Nat`, fallible
operations return `Except`, and the database/queue state is passed
explicitly.  The AES-256 block cipher itself is an external library
primitive, so it is modelled as an abstract 16-byte block permutation
inside a `CipherConfig`; the CBC chaining and the PKCS7 padding logic are
translated from `storage.py`.
-/

instance {ε α : Type} [DecidableEq ε] [DecidableEq α] :
    DecidableEq (Except ε α) := fun a b =>
  match a, b with
  | .ok x, .ok y =>
    if h : x = y then isTrue (by rw [h])
    else isFalse (fun hc => by cases hc; exact h rfl)
  | .error x, .error y =>
    if h : x = y then isTrue (by rw [h])
    else isFalse (fun hc => by cases hc; exact h rfl)
  | .ok _, .error _ => isFalse (fun hc => by cases hc)
  | .error _, .ok _ => isFalse (fun hc => by cases hc)

/-! ## Embedding of src/backend/app/storage.py -/

/-- Default value of the module-level constant `AES_KEY` in storage.py. -/
def AES_KEY_DEFAULT : String := "THIS_IS_A_DEMO_KEY_CHANGE_ME_32BYTES!!"

/-- Default value of the module-level constant `AES_IV` in storage.py. -/
def AES_IV_DEFAULT : String := "THIS_IS_A_DEMO_IV_16BYTES"

/-- storage.py: `SUPPORTED_AUDIO_FORMATS = ["wav", "mp3", "flac"]`. -/
def SUPPORTED_AUDIO_FORMATS : List String := ["wav", "mp3", "flac"]

/-- storage.py: `get_supported_audio_formats()` returns the module constant. -/
def get_supported_audio_formats : List String := SUPPORTED_AUDIO_FORMATS

/-- The static cipher configuration of storage.py: the AES-256 block
encryption/decryption permutations determined by the module-level
`AES_KEY`, and the module-level `AES_IV`.  All of these are fixed
module-level constants shared by every call. -/
structure CipherConfig where
  encBlock : List Nat → List Nat
  decBlock : List Nat → List Nat
  iv : List Nat

/-- Bytewise XOR of two byte strings (truncating to the shorter one,
as the underlying block operations only ever see equal lengths). -/
def xorBytes (a b : List Nat) : List Nat :=
  List.zipWith (fun x y => x ^^^ y) a b

/-- Split a byte string into 16-byte blocks (the AES block size used by
`modes.CBC` in storage.py); a trailing fragment shorter than 16 becomes
the last chunk. -/
def chunk16 (l : List Nat) : List (List Nat) :=
  if h : l = [] then [] else l.take 16 :: chunk16 (l.drop 16)
termination_by l.length
decreasing_by
  simp only [List.length_drop]
  exact Nat.sub_lt (List.length_pos.mpr h) (by omega)

/-- CBC-mode encryption over a block cipher: each plaintext block is
XORed with the previous ciphertext block (initially the IV) before the
block encryption is applied.  This is the semantics of the
`cryptography` library's `modes.CBC` encryptor used in storage.py. -/
def cbcEncBlocks (E : List Nat → List Nat) (prev : List Nat) :
    List (List Nat) → List (List Nat)
  | [] => []
  | p :: ps =>
    let c := E (xorBytes p prev)
    c :: cbcEncBlocks E c ps

/-- CBC-mode decryption over a block cipher: each ciphertext block is
block-decrypted and XORed with the previous ciphertext block
(initially the IV). -/
def cbcDecBlocks (D : List Nat → List Nat) (prev : List Nat) :
    List (List Nat) → List (List Nat)
  | [] => []
  | c :: cs => xorBytes (D c) prev :: cbcDecBlocks D c cs

/-- storage.py `encrypt_bytes`, PKCS7 padding step:
`pad_len = 16 - (len(data) % 16); padded_data = data + bytes([pad_len] * pad_len)`. -/
def pkcs7pad (data : List Nat) : List Nat :=
  let padLen := 16 - data.length % 16
  data ++ List.replicate padLen padLen

/-- storage.py `encrypt_bytes(data)`: PKCS7-pad the payload, then encrypt
with AES-256-CBC under the static key and IV. -/
def encrypt_bytes (cfg : CipherConfig) (data : List Nat) : List Nat :=
  List.flatten (cbcEncBlocks cfg.encBlock cfg.iv (chunk16 (pkcs7pad data)))

/-- The ways the Python `decrypt_bytes` can raise: the cipher `finalize`
raises `ValueError` when the ciphertext is not a multiple of the block
size, and `decrypted[-1]` raises `IndexError` on an empty byte string.
No other failure mode exists in the source. -/
inductive DecryptFailure where
  | valueError
  | indexError
deriving DecidableEq, Repr

/-- Python negative-index slice `xs[:-k]` for `k : Nat`: when `k = 0`
this is `xs[:0] = []`, otherwise the first `len(xs) - k` elements. -/
def pyNegSlice (xs : List Nat) (k : Nat) : List Nat :=
  if k = 0 then [] else xs.take (xs.length - k)

/-- storage.py `decrypt_bytes(data)`: AES-256-CBC decrypt under the static
key and IV, then strip PKCS7 padding by reading `pad_len = decrypted[-1]`
and returning `decrypted[:-pad_len]` — with no validation of the padding
bytes whatsoever. -/
def decrypt_bytes (cfg : CipherConfig) (data : List Nat) :
    Except DecryptFailure (List Nat) :=
  if data.length % 16 ≠ 0 then .error .valueError
  else
    let decrypted := List.flatten (cbcDecBlocks cfg.decBlock cfg.iv (chunk16 data))
    match decrypted.getLast? with
    | none => .error .indexError
    | some padLen => .ok (pyNegSlice decrypted padLen)

/-! ### Supporting lemmas for the cipher embedding -/

theorem xorBytes_length (a b : List Nat) :
    (xorBytes a b).length = min a.length b.length := by
  simp [xorBytes]

theorem xorBytes_xorBytes (a b : List Nat) (h : a.length = b.length) :
    xorBytes (xorBytes a b) b = a := by
  induction a generalizing b with
  | nil => cases b <;> simp [xorBytes]
  | cons x xs ih =>
    cases b with
    | nil => simp at h
    | cons y ys =>
      simp only [xorBytes, List.zipWith_cons_cons, List.cons.injEq]
      constructor
      · exact Nat.xor_cancel_right y x
      · exact ih ys (by simpa using h)

theorem flatten_chunk16 (l : List Nat) : (chunk16 l).flatten = l := by
  induction l using chunk16.induct with
  | case1 =>
    simp [chunk16]
  | case2 l h ih =>
    rw [chunk16]
    simp only [h, dite_false, List.flatten_cons, ih]
    exact List.take_append_drop 16 l

theorem chunk16_length_all (l : List Nat) (h : l.length % 16 = 0) :
    ∀ c ∈ chunk16 l, c.length = 16 := by
  induction l using chunk16.induct with
  | case1 =>
    simp [chunk16]
  | case2 l hl ih =>
    have hpos : 0 < l.length := List.length_pos.mpr hl
    have h16 : 16 ≤ l.length := by omega
    rw [chunk16]
    simp only [hl, dite_false, List.mem_cons]
    intro c hc
    rcases hc with hc | hc
    · subst hc
      simp only [List.length_take]
      omega
    · exact ih (by simp only [List.length_drop]; omega) c hc

theorem chunk16_flatten (bs : List (List Nat)) (h : ∀ b ∈ bs, b.length = 16) :
    chunk16 (bs.flatten) = bs := by
  induction bs with
  | nil => simp [chunk16]
  | cons b rest ih =>
    have hb : b.length = 16 := h b (by simp)
    have hbne : b ++ rest.flatten ≠ [] := by
      intro hcontra
      have hbnil : b = [] := (List.append_eq_nil.mp hcontra).1
      simp [hbnil] at hb
    rw [List.flatten_cons, chunk16]
    simp only [hbne, dite_false]
    rw [List.take_left' hb, List.drop_left' hb]
    rw [ih (fun x hx => h x (by simp [hx]))]

theorem flatten_length_mod16 (bs : List (List Nat)) (h : ∀ b ∈ bs, b.length = 16) :
    (bs.flatten).length % 16 = 0 := by
  induction bs with
  | nil => simp
  | cons b rest ih =>
    have hb : b.length = 16 := h b (by simp)
    have hr := ih (fun x hx => h x (by simp [hx]))
    rw [List.flatten_cons, List.length_append, hb]
    omega

theorem cbcEncBlocks_length_all (E : List Nat → List Nat)
    (hE : ∀ x, x.length = 16 → (E x).length = 16) :
    ∀ (ps : List (List Nat)) (prev : List Nat), (∀ p ∈ ps, p.length = 16) →
      prev.length = 16 → ∀ c ∈ cbcEncBlocks E prev ps, c.length = 16 := by
  intro ps
  induction ps with
  | nil => intro prev _ _ c hc; simp [cbcEncBlocks] at hc
  | cons p ps ih =>
    intro prev hps hprev c hc
    have hp : p.length = 16 := hps p (by simp)
    have hx : (xorBytes p prev).length = 16 := by
      rw [xorBytes_length, hp, hprev, Nat.min_self]
    have hEx : (E (xorBytes p prev)).length = 16 := hE _ hx
    simp only [cbcEncBlocks, List.mem_cons] at hc
    rcases hc with hc | hc
    · subst hc; exact hEx
    · exact ih _ (fun q hq => hps q (by simp [hq])) hEx c hc

theorem cbcDec_cbcEnc (E D : List Nat → List Nat)
    (hE : ∀ x, x.length = 16 → (E x).length = 16)
    (hD : ∀ x, x.length = 16 → D (E x) = x) :
    ∀ (ps : List (List Nat)) (prev : List Nat), (∀ p ∈ ps, p.length = 16) →
      prev.length = 16 →
      cbcDecBlocks D prev (cbcEncBlocks E prev ps) = ps := by
  intro ps
  induction ps with
  | nil => intro prev _ _; simp [cbcEncBlocks, cbcDecBlocks]
  | cons p ps ih =>
    intro prev hps hprev
    have hp : p.length = 16 := hps p (by simp)
    have hx : (xorBytes p prev).length = 16 := by
      rw [xorBytes_length, hp, hprev, Nat.min_self]
    simp only [cbcEncBlocks, cbcDecBlocks, List.cons.injEq]
    constructor
    · rw [hD _ hx]
      exact xorBytes_xorBytes p prev (by rw [hp, hprev])
    · exact ih (E (xorBytes p prev)) (fun q hq => hps q (by simp [hq])) (hE _ hx)

theorem pkcs7pad_length (data : List Nat) :
    (pkcs7pad data).length = data.length + (16 - data.length % 16) := by
  simp [pkcs7pad]

theorem pkcs7pad_length_mod (data : List Nat) :
    (pkcs7pad data).length % 16 = 0 := by
  rw [pkcs7pad_length]
  have : data.length % 16 < 16 := Nat.mod_lt _ (by omega)
  omega

theorem getLast?_replicate_pos (n v : Nat) (h : 0 < n) :
    (List.replicate n v).getLast? = some v := by
  induction n with
  | zero => omega
  | succ m ih =>
    cases m with
    | zero => simp [List.replicate]
    | succ k =>
      rw [List.replicate]
      rw [List.getLast?_cons]
      rw [ih (by omega)]
      simp [List.replicate]

theorem pkcs7pad_getLast? (data : List Nat) :
    (pkcs7pad data).getLast? = some (16 - data.length % 16) := by
  have hk : 0 < 16 - data.length % 16 := by
    have : data.length % 16 < 16 := Nat.mod_lt _ (by omega)
    omega
  unfold pkcs7pad
  rw [List.getLast?_append, getLast?_replicate_pos _ _ hk]
  rfl

theorem pyNegSlice_pkcs7pad (b : List Nat) :
    pyNegSlice (pkcs7pad b) (16 - b.length % 16) = b := by
  have hm : b.length % 16 < 16 := Nat.mod_lt _ (by omega)
  have hk : 0 < 16 - b.length % 16 := by omega
  unfold pyNegSlice
  rw [if_neg (by omega), pkcs7pad_length]
  have harith : b.length + (16 - b.length % 16) - (16 - b.length % 16) = b.length := by
    omega
  rw [harith]
  unfold pkcs7pad
  exact List.take_left' rfl

/-- C2: for every byte payload `b`, decrypting the encryption of `b`
returns `b` exactly — `decrypt_bytes (encrypt_bytes b) = b` — where the
block cipher in the static configuration is any AES-like block
permutation (length-preserving on 16-byte blocks, with `decBlock`
inverting `encBlock`) and the static IV is a legal 16-byte IV. -/
theorem C2_decrypt_encrypt_roundtrip (cfg : CipherConfig) (b : List Nat)
    (hE : ∀ x, x.length = 16 → (cfg.encBlock x).length = 16)
    (hD : ∀ x, x.length = 16 → cfg.decBlock (cfg.encBlock x) = x)
    (hiv : cfg.iv.length = 16) :
    decrypt_bytes cfg (encrypt_bytes cfg b) = Except.ok b := by
  have hpadmod : (pkcs7pad b).length % 16 = 0 := pkcs7pad_length_mod b
  have hchunks : ∀ c ∈ chunk16 (pkcs7pad b), c.length = 16 :=
    chunk16_length_all _ hpadmod
  have hencall : ∀ c ∈ cbcEncBlocks cfg.encBlock cfg.iv (chunk16 (pkcs7pad b)),
      c.length = 16 :=
    cbcEncBlocks_length_all _ hE _ _ hchunks hiv
  have hclen : (encrypt_bytes cfg b).length % 16 = 0 := by
    unfold encrypt_bytes
    exact flatten_length_mod16 _ hencall
  have h1 : chunk16 (encrypt_bytes cfg b) =
      cbcEncBlocks cfg.encBlock cfg.iv (chunk16 (pkcs7pad b)) := by
    unfold encrypt_bytes
    exact chunk16_flatten _ hencall
  have h2 : cbcDecBlocks cfg.decBlock cfg.iv
      (cbcEncBlocks cfg.encBlock cfg.iv (chunk16 (pkcs7pad b))) =
      chunk16 (pkcs7pad b) :=
    cbcDec_cbcEnc _ _ hE hD _ _ hchunks hiv
  unfold decrypt_bytes
  rw [if_neg (not_not_intro hclen)]
  simp only [h1, h2, flatten_chunk16, pkcs7pad_getLast?]
  rw [pyNegSlice_pkcs7pad]

/-- Closed witness for C2 at the identity block permutation, a 16-byte
zero IV, and a concrete payload. -/
theorem C2_decrypt_encrypt_roundtrip_witness :
    decrypt_bytes ⟨id, id, List.replicate 16 0⟩
      (encrypt_bytes ⟨id, id, List.replicate 16 0⟩ [1, 2, 3]) =
      Except.ok [1, 2, 3] :=
  C2_decrypt_encrypt_roundtrip ⟨id, id, List.replicate 16 0⟩ [1, 2, 3]
    (fun _ h => h) (fun _ _ => rfl) (by simp)

/-- C3 (refuting the claimed behavior): `decrypt_bytes` has no
padding-validation failure path at all.  On every non-empty ciphertext
whose length is a multiple of the block size — including arbitrarily
corrupted ciphertext — it returns `Except.ok` with whatever bytes the
unauthenticated CBC decryption produced, instead of failing with a
`DecryptionError`. -/
theorem C3_decrypt_bytes_never_signals_corruption (cfg : CipherConfig)
    (data : List Nat)
    (hD : ∀ x, x.length = 16 → (cfg.decBlock x).length = 16)
    (hiv : cfg.iv.length = 16)
    (hlen : data.length % 16 = 0) (hne : data ≠ []) :
    ∃ out, decrypt_bytes cfg data = Except.ok out := by
  have hchunks : ∀ c ∈ chunk16 data, c.length = 16 := chunk16_length_all _ hlen
  have hdecne : List.flatten (cbcDecBlocks cfg.decBlock cfg.iv (chunk16 data)) ≠ [] := by
    cases hc : chunk16 data with
    | nil =>
      exfalso
      apply hne
      rw [← flatten_chunk16 data, hc]
      rfl
    | cons c cs =>
      have hcl : c.length = 16 := hchunks c (by rw [hc]; simp)
      have hhead : (xorBytes (cfg.decBlock c) cfg.iv).length = 16 := by
        rw [xorBytes_length, hD c hcl, hiv, Nat.min_self]
      simp only [cbcDecBlocks, List.flatten_cons]
      intro habs
      have := (List.append_eq_nil.mp habs).1
      rw [this] at hhead
      simp at hhead
  have hpl : ∃ pl,
      (List.flatten (cbcDecBlocks cfg.decBlock cfg.iv (chunk16 data))).getLast? =
        some pl := by
    cases hL : (List.flatten (cbcDecBlocks cfg.decBlock cfg.iv (chunk16 data))).getLast? with
    | none => exact absurd (List.getLast?_eq_none_iff.mp hL) hdecne
    | some padLen => exact ⟨padLen, rfl⟩
  obtain ⟨pl, hL⟩ := hpl
  refine ⟨pyNegSlice (List.flatten (cbcDecBlocks cfg.decBlock cfg.iv (chunk16 data))) pl, ?_⟩
  unfold decrypt_bytes
  rw [if_neg (not_not_intro hlen)]
  simp only [hL]

/-- Closed witness for C3: a concrete 16-byte ciphertext (standing for a
corrupted blob) is decrypted without any error being raised. -/
theorem C3_decrypt_bytes_never_signals_corruption_witness :
    ∃ out, decrypt_bytes ⟨id, id, List.replicate 16 0⟩ (List.replicate 16 7) =
      Except.ok out :=
  C3_decrypt_bytes_never_signals_corruption ⟨id, id, List.replicate 16 0⟩
    (List.replicate 16 7) (fun _ h => h) (by simp) (by simp) (by simp)

/-- C9: encryption is deterministic as a two-run property.  The cipher
configuration (AES key schedule and IV) consists of fixed module-level
constants shared by every call, so two calls of `encrypt_bytes` on equal
payloads under the same static configuration produce byte-identical
ciphertexts. -/
theorem C9_encrypt_bytes_deterministic (cfg : CipherConfig) (b1 b2 : List Nat)
    (h : b1 = b2) : encrypt_bytes cfg b1 = encrypt_bytes cfg b2 := by
  rw [h]

/-- Closed witness for C9 at a concrete configuration and payload. -/
theorem C9_encrypt_bytes_deterministic_witness :
    encrypt_bytes ⟨id, id, List.replicate 16 0⟩ [10, 20, 30] =
      encrypt_bytes ⟨id, id, List.replicate 16 0⟩ [10, 20, 30] :=
  C9_encrypt_bytes_deterministic ⟨id, id, List.replicate 16 0⟩ [10, 20, 30]
    [10, 20, 30] rfl

/-! ## Embedding of src/backend/app/models.py and auth.py -/

/-- models.py `User` row, restricted to the fields the pipeline reads:
`id`, `is_active` and `roles`. -/
structure User where
  id : Nat
  isActive : Bool
  roles : List String
deriving DecidableEq, Repr

/-- auth.py: `ROLE_RESEARCHER = "researcher"`. -/
def ROLE_RESEARCHER : String := "researcher"

/-- auth.py: `ROLE_ADMIN = "admin"`. -/
def ROLE_ADMIN : String := "admin"

/-- auth.py `AuthError`: an HTTPException carrying a status code and a
detail message; the constructor's default status code is 401. -/
structure AuthError where
  statusCode : Nat
  detail : String
deriving DecidableEq, Repr

/-- models.py `get_user_by_id`: the first user row matching the id. -/
def get_user_by_id (users : List User) (userId : Nat) : Option User :=
  users.find? (fun u => u.id == userId)

/-- auth.py `get_current_user`: resolve the token's `user_id` against the
user table, raise a 401 `AuthError` for a missing user and for an
inactive user, and overwrite the user's roles with the token's role
claims (`user.roles = token_data.roles`). -/
def get_current_user (users : List User) (tokenUserId : Nat)
    (tokenRoles : List String) : Except AuthError User :=
  match get_user_by_id users tokenUserId with
  | none => .error ⟨401, "User not found"⟩
  | some u =>
    if u.isActive = false then .error ⟨401, "Inactive user"⟩
    else .ok { u with roles := tokenRoles }

/-- auth.py `get_current_active_researcher`: `get_current_user` followed
by the role gate `if ROLE_RESEARCHER not in user.roles`, which rejects
with 403 Forbidden. -/
def get_current_active_researcher (users : List User) (tokenUserId : Nat)
    (tokenRoles : List String) : Except AuthError User :=
  match get_current_user users tokenUserId tokenRoles with
  | .error e => .error e
  | .ok u =>
    if ROLE_RESEARCHER ∉ u.roles then .error ⟨403, "Researcher access required"⟩
    else .ok u

/-- models.py `AudioFile` row, restricted to the fields the analysis
routes and the worker read. -/
structure AudioFile where
  id : Nat
  uploaderId : Nat
  species : String
  s3ObjectKey : String
deriving DecidableEq, Repr

/-- models.py `AnalysisResult` row.  `quality_issues` is the dict produced
by `run_quality_checks`, which has exactly the keys "noise" and
"overlap"; the Python `partial` column is `isPartial` here. -/
structure AnalysisResultRow where
  audioFileId : Nat
  translation : Option String
  behavioralTags : Option (List String)
  accuracy : Option ℚ
  qualityNoise : Bool
  qualityOverlap : Bool
  isPartial : Bool
deriving DecidableEq, Repr

/-! ## Embedding of src/backend/app/ml_worker.py -/

/-- ml_worker.py: the inline species allow-list checked by
`run_analysis_task` before running the ML model. -/
def ML_ANALYSIS_SPECIES : List String :=
  ["canis_lupus", "panthera_leo", "delphinus_delphis", "gorilla_gorilla",
   "elephas_maximus"]

/-- Output of ml_worker.py `run_quality_checks`: the dict with exactly
the keys "noise" and "overlap".  The placeholder draws the two booleans
randomly, so they are nondeterministic inputs of the model. -/
structure QualityIssues where
  noise : Bool
  overlap : Bool
deriving DecidableEq, Repr

/-- Whether the quality-issues mapping contains any true entry. -/
def QualityIssues.anyTrue (q : QualityIssues) : Bool := q.noise || q.overlap

/-- ml_worker.py `run_translation_and_tagging`: returns
`(translation, tags, accuracy)` for a species the model supports. -/
def run_translation_and_tagging (species : String) :
    String × List String × ℚ :=
  ("Simulated translation for " ++ species,
   if species = "canis_lupus" then ["mating_call", "territorial"]
   else ["aggression"],
   (85 : ℚ) / 100)

/-- The dict `run_analysis_task` returns: either one of its error
markers (file missing, storage retrieval failure, unexpected exception)
or the success payload `{"result_id": ..., "partial": ..., "accuracy": ...}`. -/
inductive TaskOutcome where
  | errorResult (msg : String)
  | ok (isPartial : Bool) (accuracy : Option ℚ)
deriving DecidableEq, Repr

/-- ml_worker.py `run_analysis_task`: fetch the `AudioFile` row, retrieve
and decrypt the stored blob (`retrieveOk = false` models the `except`
branch around `retrieve_encrypted_audio_file`), run the quality checks,
gate on the species allow-list — an unsupported species yields null
translation/tags/accuracy and forces `partial = True`, a supported one
runs the model with `partial` as computed from the quality issues — and
append the `AnalysisResult` row to the table. -/
def run_analysis_task (audioFiles : List AudioFile)
    (results : List AnalysisResultRow) (retrieveOk : Bool)
    (qualityIssues : QualityIssues) (audioFileId : Nat) :
    List AnalysisResultRow × TaskOutcome :=
  match audioFiles.find? (fun f => f.id == audioFileId) with
  | none => (results, .errorResult "Audio file not found")
  | some audioFile =>
    if retrieveOk = false then
      (results, .errorResult "Failed to retrieve audio file")
    else
      let p0 := qualityIssues.noise || qualityIssues.overlap
      let out :
          Option String × Option (List String) × Option ℚ × Bool :=
        if audioFile.species ∉ ML_ANALYSIS_SPECIES then
          (none, none, none, true)
        else
          let r := run_translation_and_tagging audioFile.species
          (some r.1, some r.2.1, some r.2.2, p0)
      let row : AnalysisResultRow :=
        { audioFileId := audioFile.id
          translation := out.1
          behavioralTags := out.2.1
          accuracy := out.2.2.1
          qualityNoise := qualityIssues.noise
          qualityOverlap := qualityIssues.overlap
          isPartial := out.2.2.2 }
      (results ++ [row], .ok out.2.2.2 out.2.2.1)

/-! ## Embedding of src/backend/app/routes/audio_upload.py and species.py -/

/-- audio_upload.py: the module constant `SUPPORTED_SPECIES`. -/
def SUPPORTED_SPECIES : List String :=
  ["canis_lupus", "panthera_leo", "delphinus_delphis", "gorilla_gorilla",
   "elephas_maximus"]

/-- routes/species.py keeps its own copy of the `SUPPORTED_SPECIES`
constant, listed by the read-only species endpoint. -/
def SPECIES_ROUTE_SUPPORTED_SPECIES : List String :=
  ["canis_lupus", "panthera_leo", "delphinus_delphis", "gorilla_gorilla",
   "elephas_maximus"]

/-- audio_upload.py: `MAX_FILE_SIZE = 50 * 1024 * 1024`. -/
def MAX_FILE_SIZE : Nat := 50 * 1024 * 1024

/-- The validation rejections `upload_audio_file` can raise:
unsupported species (400), unsupported format (400), oversized
payload (413). -/
inductive UploadError where
  | unsupportedSpecies
  | unsupportedFormat
  | fileTooLarge
deriving DecidableEq, Repr

/-- Python `str.lower()` on the ASCII format strings in use, as a
structural map over the characters (`String.toLower` itself is not
kernel-reducible). -/
def strToLower (s : String) : String := ⟨s.data.map Char.toLower⟩

/-- The validation pipeline of audio_upload.py `upload_audio_file`:
`validate_species(species)`, then `validate_audio_format` on the
lower-cased format, then the inline size check
`len(contents) > MAX_FILE_SIZE`.  The code imposes no lower bound on
the payload size. -/
def validate_upload (species fileFormat : String) (sizeBytes : Nat) :
    Except UploadError Unit :=
  if species ∉ SUPPORTED_SPECIES then .error .unsupportedSpecies
  else if strToLower fileFormat ∉ get_supported_audio_formats then
    .error .unsupportedFormat
  else if sizeBytes > MAX_FILE_SIZE then .error .fileTooLarge
  else .ok ()

/-! ## Embedding of src/backend/app/routes/audio_analysis.py -/

/-- The shared backend state the analysis routes act on: the audio-file
table, the analysis-result table, and the Celery queue of
`run_analysis_task` payloads (audio-file ids), in enqueue order. -/
structure PipelineState where
  audioFiles : List AudioFile
  results : List AnalysisResultRow
  taskQueue : List Nat
deriving DecidableEq, Repr

/-- A reply of the two analysis endpoints. -/
inductive RouteReply where
  | httpError (code : Nat) (detail : String)
  | existingResult (row : AnalysisResultRow)
  | jobStarted
  | pendingMessage
deriving DecidableEq, Repr

/-- audio_analysis.py result query: the `AnalysisResult` rows of the file
ordered by `created_at` descending, taking the first — i.e. the most
recently inserted matching row. -/
def latestResultFor (results : List AnalysisResultRow) (audioFileId : Nat) :
    Option AnalysisResultRow :=
  (results.filter (fun r => r.audioFileId == audioFileId)).getLast?

/-- audio_analysis.py `trigger_audio_analysis` handler body, given the
already-authenticated `current_user`: 404 when the file is missing, 403
when the caller is not the uploader, the existing analysis result when
one is present ("Analysis already completed."), otherwise enqueue a
`run_analysis_task` and reply "Analysis job started." -/
def trigger_audio_analysis (st : PipelineState) (currentUser : User)
    (audioFileId : Nat) : PipelineState × RouteReply :=
  match st.audioFiles.find? (fun f => f.id == audioFileId) with
  | none => (st, .httpError 404 "Audio file not found.")
  | some audioFile =>
    if audioFile.uploaderId ≠ currentUser.id then
      (st, .httpError 403 "You do not have access to this audio file.")
    else
      match latestResultFor st.results audioFileId with
      | some row => (st, .existingResult row)
      | none =>
        ({ st with taskQueue := st.taskQueue ++ [audioFileId] }, .jobStarted)

/-- audio_analysis.py `get_audio_analysis_result` handler body. -/
def get_audio_analysis_result (st : PipelineState) (currentUser : User)
    (audioFileId : Nat) : RouteReply :=
  match st.audioFiles.find? (fun f => f.id == audioFileId) with
  | none => .httpError 404 "Audio file not found."
  | some audioFile =>
    if audioFile.uploaderId ≠ currentUser.id then
      .httpError 403 "You do not have access to this audio file."
    else
      match latestResultFor st.results audioFileId with
      | none => .pendingMessage
      | some row => .existingResult row

/-- The full trigger endpoint: the `get_current_active_researcher`
dependency followed by the handler body. -/
def trigger_route (users : List User) (st : PipelineState)
    (tokenUserId : Nat) (tokenRoles : List String) (audioFileId : Nat) :
    PipelineState × RouteReply :=
  match get_current_active_researcher users tokenUserId tokenRoles with
  | .error e => (st, .httpError e.statusCode e.detail)
  | .ok u => trigger_audio_analysis st u audioFileId

/-- The full result endpoint: the `get_current_active_researcher`
dependency followed by the handler body. -/
def result_route (users : List User) (st : PipelineState)
    (tokenUserId : Nat) (tokenRoles : List String) (audioFileId : Nat) :
    RouteReply :=
  match get_current_active_researcher users tokenUserId tokenRoles with
  | .error e => .httpError e.statusCode e.detail
  | .ok u => get_audio_analysis_result st u audioFileId

/-- Whether a route reply is a 403 Forbidden error. -/
def RouteReply.isForbidden : RouteReply → Bool
  | .httpError 403 _ => true
  | _ => false

/-! ## Claim theorems for authorization, dispatch, validation and worker -/

/-- C1 (refuting the claimed idempotency): the trigger endpoint keeps no
Pending-job record and no atomic insert-if-absent — it only queries the
completed `AnalysisResult` rows and then enqueues.  Starting from one
stored audio file owned by the caller and no completed result, two
successive trigger calls for the same file both take the enqueue path:
afterwards the task queue holds two analysis tasks for the same key,
not one. -/
theorem C1_two_triggers_enqueue_two_tasks :
    (trigger_route [⟨7, true, ["researcher"]⟩]
        (trigger_route [⟨7, true, ["researcher"]⟩]
            ⟨[⟨1, 7, "canis_lupus", "audio/k1"⟩], [], []⟩
            7 ["researcher"] 1).1
        7 ["researcher"] 1).1.taskQueue = [1, 1] ∧
    (trigger_route [⟨7, true, ["researcher"]⟩]
        ⟨[⟨1, 7, "canis_lupus", "audio/k1"⟩], [], []⟩
        7 ["researcher"] 1).2 = RouteReply.jobStarted := by
  decide

/-- C4: ownership isolation.  For every active principal whose id differs
from the uploader id of a stored audio file, both the analysis-trigger
endpoint and the result-retrieval endpoint reply with a 403 Forbidden
error, for every role set the principal's token may carry — the
ownership check never consults the roles. -/
theorem C4_ownership_forbidden (users : List User) (st : PipelineState)
    (tokenUserId : Nat) (tokenRoles : List String) (audioFileId : Nat)
    (u : User) (f : AudioFile)
    (hu : get_user_by_id users tokenUserId = some u)
    (hactive : u.isActive = true)
    (hf : st.audioFiles.find? (fun x => x.id == audioFileId) = some f)
    (hown : f.uploaderId ≠ u.id) :
    ((trigger_route users st tokenUserId tokenRoles audioFileId).2).isForbidden = true ∧
    (result_route users st tokenUserId tokenRoles audioFileId).isForbidden = true := by
  by_cases hr : ROLE_RESEARCHER ∈ tokenRoles
  · constructor <;>
      simp [trigger_route, result_route, get_current_active_researcher,
        get_current_user, trigger_audio_analysis, get_audio_analysis_result,
        RouteReply.isForbidden, hu, hactive, hf, hown, hr]
  · constructor <;>
      simp [trigger_route, result_route, get_current_active_researcher,
        get_current_user, RouteReply.isForbidden, hu, hactive, hr]

/-- Closed witness for C4: an active admin-only principal with id 5 is
refused access to a file uploaded by principal 7, on both endpoints. -/
theorem C4_ownership_forbidden_witness :
    ((trigger_route [⟨5, true, ["admin"]⟩]
        ⟨[⟨1, 7, "canis_lupus", "audio/k1"⟩], [], []⟩
        5 ["admin"] 1).2).isForbidden = true ∧
    (result_route [⟨5, true, ["admin"]⟩]
        ⟨[⟨1, 7, "canis_lupus", "audio/k1"⟩], [], []⟩
        5 ["admin"] 1).isForbidden = true :=
  C4_ownership_forbidden [⟨5, true, ["admin"]⟩]
    ⟨[⟨1, 7, "canis_lupus", "audio/k1"⟩], [], []⟩ 5 ["admin"] 1
    ⟨5, true, ["admin"]⟩ ⟨1, 7, "canis_lupus", "audio/k1"⟩
    (by decide) rfl (by decide) (by decide)

/-- C5 counterexample: an inactive user holding the researcher role is
rejected by the researcher gate with status 401 ("Inactive user"), not
with 403 Forbidden as the claim states. -/
theorem C5_inactive_rejected_with_401_not_403 :
    get_current_active_researcher [⟨1, false, ["researcher"]⟩] 1 ["researcher"] =
      Except.error ⟨401, "Inactive user"⟩ ∧ (401 : Nat) ≠ 403 := by
  decide

/-- C5 amended: the researcher gate succeeds exactly when the token's
user exists, is active, and the token's role claims contain
"researcher" (i.e. meet the required role set); a known inactive user
is always rejected — but with status 401, not 403 — and a known active
user whose roles miss "researcher" (an admin-only principal included)
is rejected with 403 Forbidden. -/
theorem C5_amended_researcher_gate (users : List User) (tokenUserId : Nat)
    (tokenRoles : List String) :
    ((∃ u, get_current_active_researcher users tokenUserId tokenRoles = Except.ok u) ↔
      (∃ u, get_user_by_id users tokenUserId = some u ∧ u.isActive = true ∧
        ROLE_RESEARCHER ∈ tokenRoles)) ∧
    (∀ u, get_user_by_id users tokenUserId = some u → u.isActive = false →
      get_current_active_researcher users tokenUserId tokenRoles =
        Except.error ⟨401, "Inactive user"⟩) ∧
    (∀ u, get_user_by_id users tokenUserId = some u → u.isActive = true →
      ROLE_RESEARCHER ∉ tokenRoles →
      get_current_active_researcher users tokenUserId tokenRoles =
        Except.error ⟨403, "Researcher access required"⟩) := by
  refine ⟨?_, ?_, ?_⟩
  · constructor
    · rintro ⟨u, hu⟩
      unfold get_current_active_researcher get_current_user at hu
      cases hfind : get_user_by_id users tokenUserId with
      | none => rw [hfind] at hu; simp at hu
      | some v =>
        rw [hfind] at hu
        by_cases hact : v.isActive = false
        · simp [hact] at hu
        · simp only [hact, if_false] at hu
          by_cases hrole : ROLE_RESEARCHER ∉ tokenRoles
          · simp [hrole] at hu
          · exact ⟨v, rfl, by simpa using hact, by simpa using hrole⟩
    · rintro ⟨u, hfind, hact, hrole⟩
      refine ⟨{ u with roles := tokenRoles }, ?_⟩
      unfold get_current_active_researcher get_current_user
      rw [hfind]
      simp [hact, hrole]
  · intro u hfind hact
    unfold get_current_active_researcher get_current_user
    rw [hfind]
    simp [hact]
  · intro u hfind hact hrole
    unfold get_current_active_researcher get_current_user
    rw [hfind]
    simp [hact, hrole]

/-- Closed witness for the amended C5: an active researcher passes, an
inactive researcher is rejected with 401, an active admin-only user is
rejected with 403. -/
theorem C5_amended_researcher_gate_witness :
    (∃ u, get_current_active_researcher [⟨1, true, ["researcher"]⟩] 1 ["researcher"] =
      Except.ok u) ∧
    get_current_active_researcher [⟨2, false, ["researcher"]⟩] 2 ["researcher"] =
      Except.error ⟨401, "Inactive user"⟩ ∧
    get_current_active_researcher [⟨3, true, ["admin"]⟩] 3 ["admin"] =
      Except.error ⟨403, "Researcher access required"⟩ := by
  refine ⟨?_, ?_, ?_⟩
  · exact ((C5_amended_researcher_gate [⟨1, true, ["researcher"]⟩] 1 ["researcher"]).1).mpr
      ⟨⟨1, true, ["researcher"]⟩, by decide, rfl, by decide⟩
  · exact (C5_amended_researcher_gate [⟨2, false, ["researcher"]⟩] 2 ["researcher"]).2.1
      ⟨2, false, ["researcher"]⟩ (by decide) rfl
  · exact (C5_amended_researcher_gate [⟨3, true, ["admin"]⟩] 3 ["admin"]).2.2
      ⟨3, true, ["admin"]⟩ (by decide) rfl (by decide)

/-- C6 counterexample: the upload validation pipeline accepts a payload of
size 0 — there is no positive lower bound on the size, contradicting the
claimed "size not in (0, 50 MiB] fails" rule at size 0. -/
theorem C6_empty_payload_accepted :
    validate_upload "canis_lupus" "wav" 0 = Except.ok () ∧ ¬(0 < (0 : Nat)) := by
  decide

/-- C6 amended: upload validation succeeds exactly when the species is in
the supported set, the lower-cased format is in the supported set, and
the size is at most 50 MiB — the code checks no lower bound, so an empty
payload passes.  In particular exactly 50 MiB succeeds, 50 MiB + 1 byte
fails, format "ogg" fails, and format "wav" succeeds. -/
theorem C6_amended_upload_validation (species fileFormat : String)
    (sizeBytes : Nat) :
    ((validate_upload species fileFormat sizeBytes = Except.ok ()) ↔
      (species ∈ SUPPORTED_SPECIES ∧
        strToLower fileFormat ∈ get_supported_audio_formats ∧
        sizeBytes ≤ MAX_FILE_SIZE)) ∧
    validate_upload "canis_lupus" "wav" (50 * 1024 * 1024) = Except.ok () ∧
    validate_upload "canis_lupus" "wav" (50 * 1024 * 1024 + 1) =
      Except.error UploadError.fileTooLarge ∧
    validate_upload "canis_lupus" "ogg" 1 =
      Except.error UploadError.unsupportedFormat ∧
    validate_upload "canis_lupus" "wav" 1 = Except.ok () := by
  refine ⟨?_, by decide, by decide, by decide, by decide⟩
  constructor
  · intro hok
    unfold validate_upload at hok
    split_ifs at hok with h1 h2 h3
    exact ⟨h1, h2, by omega⟩
  · rintro ⟨hs, hf, hsize⟩
    unfold validate_upload
    rw [if_neg (not_not_intro hs), if_neg (not_not_intro hf), if_neg (by omega)]

/-- C7: for every stored audio file whose species is outside the
analysis allow-list, the worker task still completes — it returns the
success payload, not one of its error markers — and the persisted
`AnalysisResult` has `partial = true` with null translation and null
tags. -/
theorem C7_unsupported_species_still_completes
    (audioFiles : List AudioFile) (results : List AnalysisResultRow)
    (qi : QualityIssues) (audioFileId : Nat) (f : AudioFile)
    (hf : audioFiles.find? (fun x => x.id == audioFileId) = some f)
    (hs : f.species ∉ ML_ANALYSIS_SPECIES) :
    run_analysis_task audioFiles results true qi audioFileId =
      (results ++ [{ audioFileId := f.id, translation := none,
                     behavioralTags := none, accuracy := none,
                     qualityNoise := qi.noise, qualityOverlap := qi.overlap,
                     isPartial := true }], TaskOutcome.ok true none) := by
  unfold run_analysis_task
  rw [hf]
  simp [hs]

/-- Closed witness for C7: a file recorded for the unsupported species
"felis_catus" yields a completed task with a partial, translation-free
result. -/
theorem C7_unsupported_species_still_completes_witness :
    run_analysis_task [⟨1, 7, "felis_catus", "audio/k1"⟩] [] true
        ⟨false, false⟩ 1 =
      ([{ audioFileId := 1, translation := none, behavioralTags := none,
          accuracy := none, qualityNoise := false, qualityOverlap := false,
          isPartial := true }], TaskOutcome.ok true none) :=
  C7_unsupported_species_still_completes [⟨1, 7, "felis_catus", "audio/k1"⟩]
    [] ⟨false, false⟩ 1 ⟨1, 7, "felis_catus", "audio/k1"⟩ (by decide) (by decide)

/-- C8: every `AnalysisResult` row the worker newly persists satisfies
the partial-flag invariant — if any quality issue fired or the
translation is null, then `partial = true`. -/
theorem C8_partial_flag_invariant (audioFiles : List AudioFile)
    (results : List AnalysisResultRow) (retrieveOk : Bool)
    (qi : QualityIssues) (audioFileId : Nat) (row : AnalysisResultRow)
    (hrow : row ∈ (run_analysis_task audioFiles results retrieveOk qi audioFileId).1)
    (hnew : row ∉ results)
    (hcause : row.qualityNoise = true ∨ row.qualityOverlap = true ∨
      row.translation = none) :
    row.isPartial = true := by
  unfold run_analysis_task at hrow
  cases hfind : audioFiles.find? (fun f => f.id == audioFileId) with
  | none =>
    rw [hfind] at hrow
    exact absurd hrow hnew
  | some f =>
    rw [hfind] at hrow
    cases retrieveOk with
    | false =>
      simp only [if_pos rfl] at hrow
      exact absurd hrow hnew
    | true =>
      simp only [Bool.true_eq_false, if_false, List.mem_append,
        List.mem_singleton] at hrow
      rcases hrow with hrow | hrow
      · exact absurd hrow hnew
      · by_cases hs : f.species ∉ ML_ANALYSIS_SPECIES
        · subst hrow
          simp [hs]
        · subst hrow
          simp only [if_neg hs] at hcause ⊢
          rcases hcause with hq | hq | hq
          · simp [hq]
          · simp [hq]
          · exact absurd hq (by simp)

/-- Closed witness for C8: a noisy recording of an unsupported species
produces a row whose partial flag is true. -/
theorem C8_partial_flag_invariant_witness :
    ({ audioFileId := 1, translation := none, behavioralTags := none,
       accuracy := none, qualityNoise := true, qualityOverlap := false,
       isPartial := true } : AnalysisResultRow).isPartial = true :=
  C8_partial_flag_invariant [⟨1, 7, "felis_catus", "audio/k1"⟩] [] true
    ⟨true, false⟩ 1
    { audioFileId := 1, translation := none, behavioralTags := none,
      accuracy := none, qualityNoise := true, qualityOverlap := false,
      isPartial := true }
    (by decide) (by decide) (Or.inl rfl)

/-- C10: the species allow-list used by upload validation is
element-for-element the list the analysis worker checks (and the copy
served by the species route); consequently a file whose species passed
ingest validation never reaches the worker's unsupported-species branch
— analysis takes the model-execution path, producing a non-null
translation and a partial flag derived only from the quality issues. -/
theorem C10_upload_and_worker_species_lists_agree
    (audioFiles : List AudioFile) (results : List AnalysisResultRow)
    (qi : QualityIssues) (audioFileId : Nat) (f : AudioFile)
    (hf : audioFiles.find? (fun x => x.id == audioFileId) = some f)
    (hs : f.species ∈ SUPPORTED_SPECIES) :
    SUPPORTED_SPECIES = ML_ANALYSIS_SPECIES ∧
    SUPPORTED_SPECIES = SPECIES_ROUTE_SUPPORTED_SPECIES ∧
    run_analysis_task audioFiles results true qi audioFileId =
      (results ++
        [{ audioFileId := f.id,
           translation := some ("Simulated translation for " ++ f.species),
           behavioralTags := some (if f.species = "canis_lupus" then
             ["mating_call", "territorial"] else ["aggression"]),
           accuracy := some ((85 : ℚ) / 100),
           qualityNoise := qi.noise, qualityOverlap := qi.overlap,
           isPartial := (qi.noise || qi.overlap) }],
       TaskOutcome.ok (qi.noise || qi.overlap) (some ((85 : ℚ) / 100))) := by
  refine ⟨rfl, rfl, ?_⟩
  have hs2 : f.species ∈ ML_ANALYSIS_SPECIES := hs
  unfold run_analysis_task
  rw [hf]
  simp [hs2, run_translation_and_tagging]

/-- Closed witness for C10 at a concrete lion recording. -/
theorem C10_upload_and_worker_species_lists_agree_witness :
    SUPPORTED_SPECIES = ML_ANALYSIS_SPECIES ∧
    SUPPORTED_SPECIES = SPECIES_ROUTE_SUPPORTED_SPECIES ∧
    run_analysis_task [⟨2, 9, "panthera_leo", "audio/k2"⟩] [] true
        ⟨false, true⟩ 2 =
      ([{ audioFileId := 2,
          translation := some ("Simulated translation for " ++ "panthera_leo"),
          behavioralTags := some (if "panthera_leo" = "canis_lupus" then
            ["mating_call", "territorial"] else ["aggression"]),
          accuracy := some ((85 : ℚ) / 100),
          qualityNoise := false, qualityOverlap := true,
          isPartial := (false || true) }],
       TaskOutcome.ok (false || true) (some ((85 : ℚ) / 100))) :=
  C10_upload_and_worker_species_lists_agree [⟨2, 9, "panthera_leo", "audio/k2"⟩]
    [] ⟨false, true⟩ 2 ⟨2, 9, "panthera_leo", "audio/k2"⟩ (by decide) (by decide)
